import Mathlib

/-!
A shallow embedding of the click-analytics service
(`src/python-service/app.py`): the two storage tables, the click-event
processor, the HTTP event receiver, the creation orchestrator and the
`clicks_over_time` aggregation query, followed by theorems settling the
specification claims about them.
-/

/-- One row of the `click_events` table (`init_db`): the auto-increment
`id` column is represented by the position in the list; `short_code` and
`clicked_at` are both declared NOT NULL, so a stored row always carries
actual strings. -/
structure ClickEvent where
  short_code : String
  clicked_at : String
deriving Repr, DecidableEq

/-- One row of the `url_metadata` table (`init_db`); `short_code` is the
primary key, `total_clicks` defaults to 0. -/
structure UrlMetadata where
  short_code : String
  long_url : String
  total_clicks : Nat
  first_seen : String
  last_clicked : Option String
  title : Option String
  description : Option String
  favicon_url : Option String
  metadata_status : String
deriving Repr, DecidableEq

/-- The SQLite database `python.db`: the two tables created by `init_db`,
each a list of rows in insertion order. -/
structure Store where
  click_events : List ClickEvent
  url_metadata : List UrlMetadata
deriving Repr, DecidableEq

/-- The JSON payload of a click event as handed to `process_click_event`
(from the Redis subscriber or the HTTP receiver). `none` models an absent
key, so that `data.get("short_code")` yields SQL NULL and
`data.get("clicked_at", now)` falls back to the default. -/
structure EventData where
  short_code : Option String
  clicked_at : Option String
deriving Repr, DecidableEq

/-- `process_click_event` (app.py lines 65-96): inserts one `click_events`
row and bumps `total_clicks` and `last_clicked` on the `url_metadata` row
whose `short_code` matches. `now` stands for
`datetime.now().isoformat()`, the default for a missing `clicked_at`.
When `short_code` is absent the INSERT violates the NOT NULL constraint
of `click_events.short_code`: sqlite3 raises before the update or the
commit runs, so nothing is written; the model renders this as `.error`,
the caller keeping its unchanged store. -/
def process_click_event (data : EventData) (now : String) (s : Store) :
    Except String Store :=
  match data.short_code with
  | none => .error "NOT NULL constraint failed: click_events.short_code"
  | some sc =>
    let clicked_at := data.clicked_at.getD now
    Except.ok
      { click_events := s.click_events ++ [⟨sc, clicked_at⟩]
        url_metadata := s.url_metadata.map fun r =>
          if r.short_code = sc then
            { r with total_clicks := r.total_clicks + 1,
                     last_clicked := some clicked_at }
          else r }

/-- A JSON response body of the `/api/events` endpoint. -/
inductive EventResp where
  | success
  | errorMsg (msg : String)
deriving Repr, DecidableEq

/-- `receive_event` (`POST /api/events`, app.py lines 233-244).
`body = none` models a missing or non-object body; a `some` body whose
`short_code` is `none` models a JSON object without that key. Returns the
HTTP status, the JSON body and the store after the request. An uncaught
storage error would surface as the framework's status 500; under the
guard the processor cannot fail. -/
def receive_event (body : Option EventData) (now : String) (s : Store) :
    (Nat × EventResp) × Store :=
  match body with
  | none => ((400, .errorMsg "Invalid event data"), s)
  | some data =>
    match data.short_code with
    | none => ((400, .errorMsg "Invalid event data"), s)
    | some _ =>
      match process_click_event data now s with
      | .ok s' => ((200, .success), s')
      | .error _ => ((500, .errorMsg "Internal Server Error"), s)

/-- The JSON body of a metadata service response (`POST /api/metadata`):
`status` plus the optional page fields. A body without a `status` key
behaves like any status other than "success". -/
structure Metadata where
  status : String
  title : Option String
  description : Option String
  favicon_url : Option String
deriving Repr, DecidableEq

/-- Outcome of the HTTP call to the Go shortening service: a
network-level failure (`requests.exceptions.RequestException`, which
includes timeouts) or a response with its status code and the
`short_code` of its JSON body. -/
inductive ShortenOutcome where
  | netErr
  | resp (status : Nat) (short_code : String)
deriving Repr, DecidableEq

/-- Outcome of the HTTP call to the Node metadata service. -/
inductive MetaOutcome where
  | netErr
  | resp (status : Nat) (payload : Metadata)
deriving Repr, DecidableEq

/-- Result of `create_short_url`: the HTTP status, the JSON `error`
message if any, the returned short code and metadata on success, the
store after the request, and whether each external service was actually
called. -/
structure CreateResult where
  http_status : Nat
  error : Option String
  short_code : Option String
  metadata : Option Metadata
  store : Store
  called_shorten : Bool
  called_metadata : Bool
deriving Repr, DecidableEq

/-- The persistence step of `create_short_url` (app.py lines 185-215): an
INSERT OR IGNORE into `url_metadata`, storing the 'fetched' row with the
returned page fields when the metadata status is "success" and the
'failed' row with NULL page fields otherwise. A primary-key conflict on
`short_code` makes either INSERT a no-op. -/
def insert_url_metadata (sc long_url now : String) (m : Metadata)
    (s : Store) : Store :=
  if s.url_metadata.any (fun r => r.short_code == sc) then s
  else if m.status = "success" then
    { s with url_metadata := s.url_metadata ++
        [⟨sc, long_url, 0, now, none, m.title, m.description,
          m.favicon_url, "fetched"⟩] }
  else
    { s with url_metadata := s.url_metadata ++
        [⟨sc, long_url, 0, now, none, none, none, none, "failed"⟩] }

/-- `create_short_url` (`POST /create`, app.py lines 150-230). `long_url`
is the form field (`none` when absent; Python's `not long_url` also
treats the empty string as missing). The outcomes of the two external
calls are inputs of the model; the `called_shorten` / `called_metadata`
flags record whether the code reaches each call. `now` stands for
`datetime.now().isoformat()`. -/
def create_short_url (long_url : Option String) (shorten : ShortenOutcome)
    (meta : MetaOutcome) (now : String) (s : Store) : CreateResult :=
  match long_url with
  | none => ⟨400, some "URL is required", none, none, s, false, false⟩
  | some lu =>
    if lu = "" then ⟨400, some "URL is required", none, none, s, false, false⟩
    else
      match shorten with
      | .netErr => ⟨503, some "Go service unavailable", none, none, s, true, false⟩
      | .resp st sc =>
        if st = 200 then
          let metadata : Metadata :=
            match meta with
            | .netErr => ⟨"unavailable", none, none, none⟩
            | .resp ms p =>
              if ms = 200 then p else ⟨"unavailable", none, none, none⟩
          ⟨200, none, some sc, some metadata,
            insert_url_metadata sc lu now metadata s, true, true⟩
        else
          ⟨st, some "Failed to create short URL", none, none, s, true, false⟩

/-- SQLite compares TEXT values byte-wise; on the ASCII timestamp
strings stored here that is the lexicographic order on the character
lists, which coincides with the library order on `String`
(`String.le_iff_toList_le`). -/
def textLe (a b : String) : Bool := decide (a.toList ≤ b.toList)

/-- Models sqlite `strftime('%Y-%m-%d %H:00:00', clicked_at)` on an
ISO-8601 timestamp string `YYYY-MM-DDTHH:MM:SS...` (a space separator
works the same): the date, a space, the hour, then ":00:00". -/
def truncHour (t : String) : String :=
  t.take 10 ++ " " ++ (t.drop 11).take 2 ++ ":00:00"

/-- The `clicks_over_time` query of `get_stats` (app.py lines 285-299):
click events with `clicked_at >= cutoff` (sqlite compares the TEXT
values lexicographically), grouped by the hour bucket
`truncHour clicked_at`, one `(hour, count)` row per distinct bucket,
ordered ascending by bucket. `cutoff` is
`(datetime.now() - timedelta(hours=24)).isoformat()`, computed by the
caller from the current time. -/
def clicks_over_time (cutoff : String) (s : Store) : List (String × Nat) :=
  let evs := s.click_events.filter fun e => textLe cutoff e.clicked_at
  let hours := (evs.map fun e => truncHour e.clicked_at).dedup
  (List.insertionSort (fun a b => textLe a b = true) hours).map fun h =>
    (h, (evs.filter fun e => truncHour e.clicked_at == h).length)

/-- Number of `click_events` rows with the given short code
(`SELECT COUNT(*) FROM click_events WHERE short_code = ?`). -/
def clickCount (sc : String) (s : Store) : Nat :=
  (s.click_events.filter fun e => e.short_code == sc).length

/-- The `url_metadata` row with the given primary key, if any. -/
def metaRow (sc : String) (s : Store) : Option UrlMetadata :=
  s.url_metadata.find? fun r => r.short_code == sc

/-- Processing a list of events the way the two ingestion paths do: each
processor failure is caught by the caller (the subscriber's per-message
try/except, or the framework error response) and leaves the store as it
was; the loop continues. -/
def runEvents (evs : List EventData) (now : String) (s : Store) : Store :=
  evs.foldl (fun st e =>
    match process_click_event e now st with
    | .ok st' => st'
    | .error _ => st) s

instance : IsTotal String (fun a b => textLe a b = true) :=
  ⟨fun a b => by
    simp only [textLe, decide_eq_true_eq]
    exact le_total a.toList b.toList⟩

instance : IsTrans String (fun a b => textLe a b = true) :=
  ⟨fun a b c hab hbc => by
    simp only [textLe, decide_eq_true_eq] at hab hbc ⊢
    exact le_trans hab hbc⟩

/-- C4: invoking the processor for a short code that has no
`url_metadata` row raises no error: the click event row is still
inserted (with the supplied or defaulted timestamp) and the metadata
table is left exactly as it was. -/
theorem c4_missing_metadata_row_safe (d : EventData) (c now : String)
    (s : Store) (hc : d.short_code = some c)
    (hno : ∀ r ∈ s.url_metadata, r.short_code ≠ c) :
    process_click_event d now s =
      Except.ok ⟨s.click_events ++ [⟨c, d.clicked_at.getD now⟩], s.url_metadata⟩ := by
  simp only [process_click_event, hc, Except.ok.injEq, Store.mk.injEq, true_and]
  exact (List.map_congr_left fun r hr => if_neg (hno r hr)).trans (List.map_id _)

/-- C4 witness: a concrete invocation with an unrelated metadata row. -/
theorem c4_missing_metadata_row_safe_witness :
    process_click_event ⟨some "abc", none⟩ "t1"
        ⟨[], [⟨"xyz", "u", 0, "t0", none, none, none, none, "failed"⟩]⟩ =
      Except.ok ⟨[⟨"abc", "t1"⟩],
        [⟨"xyz", "u", 0, "t0", none, none, none, none, "failed"⟩]⟩ :=
  c4_missing_metadata_row_safe ⟨some "abc", none⟩ "abc" "t1" _ rfl (by decide)

/-- C5: a `POST /api/events` body carrying a `short_code` yields status
200 with the success body, and exactly one new `click_events` row with
that short code is appended; its `clicked_at` is the supplied value when
present and the current time otherwise. -/
theorem c5_receive_event_success (d : EventData) (c now : String) (s : Store)
    (hc : d.short_code = some c) :
    (receive_event (some d) now s).1 = (200, EventResp.success) ∧
    ((receive_event (some d) now s).2).click_events =
      s.click_events ++ [⟨c, d.clicked_at.getD now⟩] := by
  refine ⟨?_, ?_⟩ <;> simp [receive_event, process_click_event, hc]

/-- C5 witness: the spec's own example body, with `clicked_at` absent. -/
theorem c5_receive_event_success_witness :
    (receive_event (some ⟨some "abc123", none⟩) "t1" ⟨[], []⟩).1 =
      (200, EventResp.success) ∧
    ((receive_event (some ⟨some "abc123", none⟩) "t1" ⟨[], []⟩).2).click_events =
      [⟨"abc123", "t1"⟩] :=
  c5_receive_event_success ⟨some "abc123", none⟩ "abc123" "t1" ⟨[], []⟩ rfl

/-- C6: a `POST /api/events` request whose body is missing or lacks the
`short_code` key returns 400 with the "Invalid event data" error and
leaves the store untouched. -/
theorem c6_receive_event_invalid (body : Option EventData) (now : String)
    (s : Store)
    (h : body = none ∨ ∃ d, body = some d ∧ d.short_code = none) :
    receive_event body now s = ((400, EventResp.errorMsg "Invalid event data"), s) := by
  rcases h with h | ⟨d, hb, hd⟩
  · simp [receive_event, h]
  · subst hb
    simp [receive_event, hd]

/-- C6 witness: the empty JSON object as body. -/
theorem c6_receive_event_invalid_witness :
    receive_event (some ⟨none, none⟩) "t1" ⟨[], []⟩ =
      ((400, EventResp.errorMsg "Invalid event data"), ⟨[], []⟩) :=
  c6_receive_event_invalid (some ⟨none, none⟩) "t1" ⟨[], []⟩
    (Or.inr ⟨⟨none, none⟩, rfl, rfl⟩)

/-- C7: a `POST /create` request with `long_url` absent or empty returns
400 with the error message, calls neither external service and writes
nothing. -/
theorem c7_create_missing_url (long_url : Option String)
    (shorten : ShortenOutcome) (meta : MetaOutcome) (now : String) (s : Store)
    (h : long_url = none ∨ long_url = some "") :
    create_short_url long_url shorten meta now s =
      ⟨400, some "URL is required", none, none, s, false, false⟩ := by
  rcases h with h | h <;> subst h <;> simp [create_short_url]

/-- C7 witness: the empty form field. -/
theorem c7_create_missing_url_witness :
    create_short_url (some "") ShortenOutcome.netErr MetaOutcome.netErr "t1" ⟨[], []⟩ =
      ⟨400, some "URL is required", none, none, ⟨[], []⟩, false, false⟩ :=
  c7_create_missing_url (some "") ShortenOutcome.netErr MetaOutcome.netErr "t1"
    ⟨[], []⟩ (Or.inr rfl)

/-- C8: the INSERT OR IGNORE persistence step is idempotent on the short
code: running it a second time with the same short code — whatever the
new long URL, timestamp or metadata — returns the store of the first run
unchanged, every field of the stored row included. -/
theorem c8_insert_idempotent (sc lu1 lu2 n1 n2 : String) (m1 m2 : Metadata)
    (s : Store) :
    insert_url_metadata sc lu2 n2 m2 (insert_url_metadata sc lu1 n1 m1 s) =
      insert_url_metadata sc lu1 n1 m1 s := by
  unfold insert_url_metadata
  by_cases h : s.url_metadata.any (fun r => r.short_code == sc)
  · simp [h]
  · by_cases hm : m1.status = "success" <;> simp [h, hm, List.any_append]

/-- C10: handing the processor a payload without `short_code` (which the
feed listener does not guard against) makes the click-event INSERT
violate the NOT NULL constraint: the error is raised to the caller and
the store is left unchanged — no click event row, no metadata change. -/
theorem c10_null_short_code_error (d : EventData) (now : String) (s : Store)
    (h : d.short_code = none) :
    process_click_event d now s =
      Except.error "NOT NULL constraint failed: click_events.short_code" ∧
    runEvents [d] now s = s := by
  constructor
  · simp [process_click_event, h]
  · simp [runEvents, process_click_event, h]

/-- C10 witness: a payload carrying only a timestamp, against a store
with one metadata row. -/
theorem c10_null_short_code_error_witness :
    process_click_event ⟨none, some "t2"⟩ "t1"
        ⟨[], [⟨"abc", "u", 0, "t0", none, none, none, none, "failed"⟩]⟩ =
      Except.error "NOT NULL constraint failed: click_events.short_code" ∧
    runEvents [⟨none, some "t2"⟩] "t1"
        ⟨[], [⟨"abc", "u", 0, "t0", none, none, none, none, "failed"⟩]⟩ =
      ⟨[], [⟨"abc", "u", 0, "t0", none, none, none, none, "failed"⟩]⟩ :=
  c10_null_short_code_error ⟨none, some "t2"⟩ "t1"
    ⟨[], [⟨"abc", "u", 0, "t0", none, none, none, none, "failed"⟩]⟩ rfl

/-- C2 (amended): when the shortening call returns 200 but the metadata
call fails at the network level or with a non-200 status, and no
`url_metadata` row with that short code exists yet, the request still
returns 200 with `metadata.status = "unavailable"` and stores a row with
`metadata_status = "failed"` and NULL title, description and favicon. -/
theorem c2_metadata_failure_degrades (lu sc now : String) (meta : MetaOutcome)
    (s : Store) (hlu : lu ≠ "")
    (hmeta : meta = MetaOutcome.netErr ∨
      ∃ ms p, meta = MetaOutcome.resp ms p ∧ ms ≠ 200)
    (hfresh : ∀ r ∈ s.url_metadata, r.short_code ≠ sc) :
    create_short_url (some lu) (ShortenOutcome.resp 200 sc) meta now s =
      ⟨200, none, some sc, some ⟨"unavailable", none, none, none⟩,
        { s with url_metadata := s.url_metadata ++
            [⟨sc, lu, 0, now, none, none, none, none, "failed"⟩] }, true, true⟩ := by
  have hany : s.url_metadata.any (fun r => r.short_code == sc) = false := by
    simp only [List.any_eq_false]
    intro r hr
    simp [hfresh r hr]
  rcases hmeta with h | ⟨ms, p, h, hms⟩ <;> subst h
  · simp [create_short_url, insert_url_metadata, hlu, hany]
  · simp [create_short_url, insert_url_metadata, hlu, hms, hany]

/-- C2 witness: the spec's example — shortening returns `xYz9`, the
metadata service times out, the store is empty. -/
theorem c2_metadata_failure_degrades_witness :
    create_short_url (some "http://e.com") (ShortenOutcome.resp 200 "xYz9")
        MetaOutcome.netErr "t1" ⟨[], []⟩ =
      ⟨200, none, some "xYz9", some ⟨"unavailable", none, none, none⟩,
        ⟨[], [⟨"xYz9", "http://e.com", 0, "t1", none, none, none, none, "failed"⟩]⟩,
        true, true⟩ :=
  c2_metadata_failure_degrades "http://e.com" "xYz9" "t1" MetaOutcome.netErr
    ⟨[], []⟩ (by decide) (Or.inl rfl) (by decide)

/-- C2 counterexample to the claim as stated: when a `url_metadata` row
with the short code already exists (here with `metadata_status =
"fetched"`), the INSERT OR IGNORE stores nothing — the request still
returns 200 with the unavailable placeholder, but no row with
`metadata_status = "failed"` is persisted. -/
theorem c2_existing_row_counterexample :
    create_short_url (some "http://e.com") (ShortenOutcome.resp 200 "xYz9")
        MetaOutcome.netErr "t1"
        ⟨[], [⟨"xYz9", "http://old.com", 3, "t0", none, some "Old", none, none, "fetched"⟩]⟩ =
      ⟨200, none, some "xYz9", some ⟨"unavailable", none, none, none⟩,
        ⟨[], [⟨"xYz9", "http://old.com", 3, "t0", none, some "Old", none, none, "fetched"⟩]⟩,
        true, true⟩ ∧
    ∀ r ∈ (create_short_url (some "http://e.com") (ShortenOutcome.resp 200 "xYz9")
        MetaOutcome.netErr "t1"
        ⟨[], [⟨"xYz9", "http://old.com", 3, "t0", none, some "Old", none, none, "fetched"⟩]⟩).store.url_metadata,
      r.metadata_status ≠ "failed" := by
  constructor
  · decide
  · decide

/-- C3 (amended): with a present, non-empty `long_url` the shortening
call gates the whole operation — a network failure yields 503 with no
metadata call and no writes; a non-200 status (201 included) is passed
through with no metadata call and no writes; and exactly a 200 response
proceeds to the metadata call and the persistence step. -/
theorem c3_shorten_gate (lu now : String) (meta : MetaOutcome) (s : Store)
    (hlu : lu ≠ "") :
    (create_short_url (some lu) ShortenOutcome.netErr meta now s =
      ⟨503, some "Go service unavailable", none, none, s, true, false⟩) ∧
    (∀ st sc, st ≠ 200 →
      create_short_url (some lu) (ShortenOutcome.resp st sc) meta now s =
        ⟨st, some "Failed to create short URL", none, none, s, true, false⟩) ∧
    (∀ sc, ∃ m, create_short_url (some lu) (ShortenOutcome.resp 200 sc) meta now s =
      ⟨200, none, some sc, some m, insert_url_metadata sc lu now m s, true, true⟩) := by
  refine ⟨by simp [create_short_url, hlu], fun st sc hst => by
    simp [create_short_url, hlu, hst], fun sc => ?_⟩
  cases meta with
  | netErr => exact ⟨⟨"unavailable", none, none, none⟩, by simp [create_short_url, hlu]⟩
  | resp ms p =>
    by_cases hms : ms = 200
    · subst hms
      exact ⟨p, by simp [create_short_url, hlu]⟩
    · exact ⟨⟨"unavailable", none, none, none⟩, by simp [create_short_url, hlu, hms]⟩

/-- C3 witness: a concrete unreachable shortening service. -/
theorem c3_shorten_gate_witness :
    create_short_url (some "http://e.com") ShortenOutcome.netErr
        MetaOutcome.netErr "t1" ⟨[], []⟩ =
      ⟨503, some "Go service unavailable", none, none, ⟨[], []⟩, true, false⟩ :=
  (c3_shorten_gate "http://e.com" "t1" MetaOutcome.netErr ⟨[], []⟩ (by decide)).1

/-- C3 counterexample to the claim as stated: a 201 response is 2xx, yet
the code (which tests `status_code == 200`) aborts with the error body,
never calls the metadata service and writes nothing, instead of
proceeding to the metadata and persistence steps. -/
theorem c3_status_2xx_counterexample :
    create_short_url (some "http://e.com") (ShortenOutcome.resp 201 "ab1")
        (MetaOutcome.resp 200 ⟨"success", some "T", none, none⟩) "t1" ⟨[], []⟩ =
      ⟨201, some "Failed to create short URL", none, none, ⟨[], []⟩, true, false⟩ := by
  decide

/-- A `find?` lookup commutes with mapping a function that leaves the
predicate's value on every element unchanged. -/
theorem find?_map_of_pred {α : Type} (f : α → α) (p : α → Bool)
    (hf : ∀ r, p (f r) = p r) (l : List α) :
    (l.map f).find? p = (l.find? p).map f := by
  induction l with
  | nil => rfl
  | cons r l ih =>
    simp only [List.map_cons]
    cases hp : p r with
    | true =>
      rw [List.find?_cons_of_pos _ ((hf r).trans hp),
        List.find?_cons_of_pos _ hp, Option.map_some']
    | false =>
      rw [List.find?_cons_of_neg _ (by simp [hf r, hp]),
        List.find?_cons_of_neg _ (by simp [hp]), ih]

/-- One processor invocation preserves the lockstep between
`total_clicks` and the count of click-event rows for any short code
whose metadata row exists. -/
theorem lockstep_step (sc : String) (e : EventData) (now : String)
    (s s' : Store) (hs : process_click_event e now s = Except.ok s')
    (h : (metaRow sc s).map UrlMetadata.total_clicks = some (clickCount sc s)) :
    (metaRow sc s').map UrlMetadata.total_clicks = some (clickCount sc s') := by
  cases hc : e.short_code with
  | none => simp [process_click_event, hc] at hs
  | some c =>
    simp only [process_click_event, hc, Except.ok.injEq] at hs
    subst hs
    obtain ⟨r, hr, hclicks⟩ :
        ∃ r, metaRow sc s = some r ∧ r.total_clicks = clickCount sc s := by
      cases hmr : metaRow sc s with
      | none => rw [hmr] at h; simp at h
      | some r =>
        refine ⟨r, rfl, ?_⟩
        rw [hmr] at h
        simpa using h
    have hr' : s.url_metadata.find? (fun x => x.short_code == sc) = some r := hr
    have hrsc : (r.short_code == sc) = true := by
      simpa using List.find?_some hr'
    have hrsc' : r.short_code = sc := by simpa using hrsc
    have hfind : metaRow sc
        ⟨s.click_events ++ [⟨c, e.clicked_at.getD now⟩],
          s.url_metadata.map fun x =>
            if x.short_code = c then
              { x with total_clicks := x.total_clicks + 1,
                       last_clicked := some (e.clicked_at.getD now) }
            else x⟩ =
        (metaRow sc s).map fun x =>
          if x.short_code = c then
            { x with total_clicks := x.total_clicks + 1,
                     last_clicked := some (e.clicked_at.getD now) }
          else x := by
      unfold metaRow
      exact find?_map_of_pred _ _
        (fun x => by by_cases hx : x.short_code = c <;> simp [hx]) _
    have hcount : clickCount sc
        ⟨s.click_events ++ [⟨c, e.clicked_at.getD now⟩],
          s.url_metadata.map fun x =>
            if x.short_code = c then
              { x with total_clicks := x.total_clicks + 1,
                       last_clicked := some (e.clicked_at.getD now) }
            else x⟩ =
        clickCount sc s + (if c = sc then 1 else 0) := by
      unfold clickCount
      by_cases hcs : c = sc <;> simp [List.filter_append, hcs]
    rw [hfind, hr, hcount]
    by_cases hcs : c = sc
    · simp [Option.map_some', hrsc', hcs, hclicks]
    · have hne : r.short_code ≠ c := by
        rw [hrsc']
        exact fun hh => hcs hh.symm
      simp [Option.map_some', if_neg hne, hclicks, hcs]

/-- C1 (amended): once a short code's `url_metadata` row exists with
`total_clicks` equal to its current click-event count (as it does right
after creation when no earlier events were ingested), processing any
further sequence of events — for this or any other short code, failed
ones included — keeps `total_clicks` equal to the number of
`click_events` rows for that short code. Events processed before the row
existed are not reflected in `total_clicks`. -/
theorem c1_lockstep_preserved (sc : String) (evs : List EventData)
    (now : String) (s : Store)
    (h : (metaRow sc s).map UrlMetadata.total_clicks = some (clickCount sc s)) :
    (metaRow sc (runEvents evs now s)).map UrlMetadata.total_clicks =
      some (clickCount sc (runEvents evs now s)) := by
  induction evs generalizing s with
  | nil => exact h
  | cons e evs ih =>
    have hrun : runEvents (e :: evs) now s =
        runEvents evs now
          (match process_click_event e now s with
            | .ok st' => st'
            | .error _ => s) := rfl
    rw [hrun]
    cases hp : process_click_event e now s with
    | ok s' =>
      simp only [hp]
      exact ih s' (lockstep_step sc e now s s' hp h)
    | error msg =>
      simp only [hp]
      exact ih s h

/-- C1 witness: a store whose row for "abc" is in lockstep, run over one
matching event, one foreign event and one malformed event. -/
theorem c1_lockstep_preserved_witness :
    (metaRow "abc" (runEvents
        [⟨some "abc", some "t2"⟩, ⟨some "zzz", none⟩, ⟨none, none⟩] "t9"
        ⟨[], [⟨"abc", "u", 0, "t0", none, none, none, none, "failed"⟩]⟩)).map
        UrlMetadata.total_clicks =
      some (clickCount "abc" (runEvents
        [⟨some "abc", some "t2"⟩, ⟨some "zzz", none⟩, ⟨none, none⟩] "t9"
        ⟨[], [⟨"abc", "u", 0, "t0", none, none, none, none, "failed"⟩]⟩)) :=
  c1_lockstep_preserved "abc"
    [⟨some "abc", some "t2"⟩, ⟨some "zzz", none⟩, ⟨none, none⟩] "t9"
    ⟨[], [⟨"abc", "u", 0, "t0", none, none, none, none, "failed"⟩]⟩ (by decide)

/-- C1 counterexample to the claim as stated: a click event processed
before the `url_metadata` row existed is never counted. One event for
"abc" is ingested into an empty store, then the creation step inserts
the row: all events are processed, yet `total_clicks` is 0 while one
`click_events` row with that short code exists. -/
theorem c1_lockstep_counterexample :
    (metaRow "abc" (insert_url_metadata "abc" "http://e.com" "t2"
        ⟨"unavailable", none, none, none⟩
        (runEvents [⟨some "abc", some "t1"⟩] "t1" ⟨[], []⟩))).map
        UrlMetadata.total_clicks = some 0 ∧
    clickCount "abc" (insert_url_metadata "abc" "http://e.com" "t2"
        ⟨"unavailable", none, none, none⟩
        (runEvents [⟨some "abc", some "t1"⟩] "t1" ⟨[], []⟩)) = 1 := by
  constructor
  · decide
  · decide

/-- C9: the `clicks_over_time` result is ordered strictly ascending by
hour bucket; every returned `(hour, count)` pair counts exactly the
click events inside the trailing window (`clicked_at >= cutoff`, the
cutoff being now minus 24 hours) whose `clicked_at` truncates to that
hour; and every in-window event's bucket appears in the result. -/
theorem c9_clicks_over_time_correct (cutoff : String) (s : Store) :
    List.Pairwise (fun a b : String × Nat => a.1 < b.1)
      (clicks_over_time cutoff s) ∧
    (∀ h n, (h, n) ∈ clicks_over_time cutoff s →
      n = ((s.click_events.filter fun e => textLe cutoff e.clicked_at).filter
            fun e => truncHour e.clicked_at == h).length) ∧
    (∀ e ∈ s.click_events, cutoff ≤ e.clicked_at →
      ∃ n, (truncHour e.clicked_at, n) ∈ clicks_over_time cutoff s) := by
  unfold clicks_over_time
  refine ⟨?_, ?_, ?_⟩
  · rw [List.pairwise_map]
    have hsorted : List.Sorted (fun a b => textLe a b = true)
        (List.insertionSort (fun a b => textLe a b = true)
          ((s.click_events.filter fun e =>
            textLe cutoff e.clicked_at).map fun e => truncHour e.clicked_at).dedup) :=
      List.sorted_insertionSort _ _
    have hnodup : (List.insertionSort (fun a b => textLe a b = true)
        ((s.click_events.filter fun e =>
          textLe cutoff e.clicked_at).map fun e => truncHour e.clicked_at).dedup).Nodup :=
      ((List.perm_insertionSort _ _).nodup_iff).mpr (List.nodup_dedup _)
    refine (hsorted.and hnodup).imp fun hab => ?_
    refine lt_of_le_of_ne ?_ hab.2
    have h1 := hab.1
    rw [textLe, decide_eq_true_eq] at h1
    exact String.le_iff_toList_le.mpr h1
  · intro h n hmem
    rw [List.mem_map] at hmem
    obtain ⟨h', _, heq⟩ := hmem
    injection heq with h1 h2
    subst h1
    subst h2
    rfl
  · intro e he hle
    refine ⟨((s.click_events.filter fun x => textLe cutoff x.clicked_at).filter
      fun x => truncHour x.clicked_at == truncHour e.clicked_at).length, ?_⟩
    rw [List.mem_map]
    refine ⟨truncHour e.clicked_at, ?_, rfl⟩
    rw [(List.perm_insertionSort _ _).mem_iff, List.mem_dedup, List.mem_map]
    refine ⟨e, List.mem_filter.mpr ⟨he, ?_⟩, rfl⟩
    rw [textLe, decide_eq_true_eq]
    exact String.le_iff_toList_le.mp hle

/-- C9 witness: two clicks at 10:05 and 10:40 of the same day fall into
the single bucket "2025-06-01 10:00:00" with count 2, and the result is
sorted. -/
theorem c9_clicks_over_time_correct_witness :
    clicks_over_time "2025-05-31T12:00:00"
        ⟨[⟨"abc", "2025-06-01T10:05:00"⟩, ⟨"abc", "2025-06-01T10:40:00"⟩], []⟩ =
      [("2025-06-01 10:00:00", 2)] ∧
    List.Pairwise (fun a b : String × Nat => a.1 < b.1)
      (clicks_over_time "2025-05-31T12:00:00"
        ⟨[⟨"abc", "2025-06-01T10:05:00"⟩, ⟨"abc", "2025-06-01T10:40:00"⟩], []⟩) :=
  ⟨by decide, (c9_clicks_over_time_correct "2025-05-31T12:00:00"
    ⟨[⟨"abc", "2025-06-01T10:05:00"⟩, ⟨"abc", "2025-06-01T10:40:00"⟩], []⟩).1⟩
